import Mathlib

/-!
A shallow embedding of the signaling server's room/user data model,
repository layer, room service and signaling engine, together with
theorems settling the specification claims about them.

Machine state that lives in Redis is modelled as an explicit key-value
store (association lists keyed by strings); `time.Now()` is passed in as
an explicit `now : Nat`; fallible Go functions return `Except Err`.
Transport-level failures of the KV client are out of scope, so the KV
primitives themselves are total; the logic-level errors the Go code
creates with `fmt.Errorf` are the `Err` inductive, with `Err.message`
rendering the exact Go format strings.
-/

/-! ## Data model (internal/model/room.go, internal/model/user.go) -/

def MaxRoomUsers : Nat := 10

structure Room where
  id : String
  users : List String
  createdAt : Nat
  updatedAt : Nat
deriving DecidableEq, Repr

/-- CanJoin checks if a user can join the room. -/
def Room.canJoin (r : Room) : Bool := decide (r.users.length < MaxRoomUsers)

/-- AddUser adds a user to the room; returns whether the add was accepted
together with the updated room (Go mutates the receiver). -/
def Room.addUser (r : Room) (userID : String) (now : Nat) : Bool × Room :=
  if !r.canJoin then (false, r)
  else if userID ∈ r.users then (true, r)
  else (true, { r with users := r.users ++ [userID], updatedAt := now })

/-- RemoveUser removes the first occurrence of a user from the room. -/
def Room.removeUser (r : Room) (userID : String) (now : Nat) : Bool × Room :=
  if userID ∈ r.users then (true, { r with users := r.users.erase userID, updatedAt := now })
  else (false, r)

/-- IsEmpty checks if the room is empty. -/
def Room.isEmpty (r : Room) : Bool := r.users.isEmpty

/-- GetOtherUsers returns all users except the specified one. -/
def Room.getOtherUsers (r : Room) (userID : String) : List String :=
  r.users.filter (fun id => id != userID)

structure UserSession where
  id : String
  sessionID : String
  roomID : String := ""
  createdAt : Nat := 0
  lastSeen : Nat := 0
deriving DecidableEq, Repr

/-! ## Shared KV store (internal/repository, Redis-backed) -/

structure KVStore where
  users : List (String × UserSession)
  rooms : List (String × Room)
deriving DecidableEq, Repr

def kvSet {β : Type} (l : List (String × β)) (k : String) (v : β) : List (String × β) :=
  (k, v) :: l.filter (fun p => p.1 != k)

def kvDel {β : Type} (l : List (String × β)) (k : String) : List (String × β) :=
  l.filter (fun p => p.1 != k)

/-- Errors produced with fmt.Errorf in the Go sources, by identity. -/
inductive Err
  | roomIsFull
  | roomFullOrUserExists
  | userNotFound (id : String)
  | targetUserNotConnected (id : String)
  | userConnectionNotFound (id : String)
  | unmarshalFailed
  | unknownMessageType (t : String)
deriving DecidableEq, Repr

/-- The exact message strings of the Go errors. -/
def Err.message : Err → String
  | .roomIsFull => "room is full"
  | .roomFullOrUserExists => "room is full or user already exists"
  | .userNotFound id => "user not found: " ++ id
  | .targetUserNotConnected id => "target user not connected: " ++ id
  | .userConnectionNotFound id => "user connection not found: " ++ id
  | .unmarshalFailed => "failed to unmarshal message"
  | .unknownMessageType t => "unknown message type: " ++ t

def getUser (kv : KVStore) (userID : String) : Option UserSession :=
  List.lookup userID kv.users

def saveUser (kv : KVStore) (u : UserSession) : KVStore :=
  { kv with users := kvSet kv.users u.id u }

def getRoom (kv : KVStore) (roomID : String) : Option Room :=
  List.lookup roomID kv.rooms

def saveRoom (kv : KVStore) (r : Room) : KVStore :=
  { kv with rooms := kvSet kv.rooms r.id r }

def deleteRoom (kv : KVStore) (roomID : String) : KVStore :=
  { kv with rooms := kvDel kv.rooms roomID }

/-- UpdateUserRoom (RedisRepository): fetch the user, set its room and
last-seen, save it back; fails when the user record is absent. -/
def updateUserRoom (kv : KVStore) (userID roomID : String) (now : Nat) : Except Err KVStore :=
  match getUser kv userID with
  | none => .error (.userNotFound userID)
  | some u => .ok (saveUser kv { u with roomID := roomID, lastSeen := now })

/-- AddUserToRoom (RedisRepository): fetch or lazily create the room, run
Room.AddUser, persist on acceptance. -/
def addUserToRoom (kv : KVStore) (roomID userID : String) (now : Nat) : Except Err KVStore :=
  let room :=
    match getRoom kv roomID with
    | some r => r
    | none => { id := roomID, users := [], createdAt := now, updatedAt := now }
  let res := room.addUser userID now
  if res.1 then .ok (saveRoom kv res.2) else .error .roomFullOrUserExists

/-- RemoveUserFromRoom (RedisRepository): absent room is a no-op; otherwise
remove the user and delete the room entirely when it became empty. -/
def removeUserFromRoom (kv : KVStore) (roomID userID : String) (now : Nat) : KVStore :=
  match getRoom kv roomID with
  | none => kv
  | some r =>
    let r1 := (r.removeUser userID now).2
    if r1.isEmpty then deleteRoom kv roomID else saveRoom kv r1

def getRoomUsersRepo (kv : KVStore) (roomID : String) : List String :=
  match getRoom kv roomID with
  | none => []
  | some r => r.users

/-! ## Room service (RoomService, src/unnamed/part_007)

Redis mutations that happened before a failing step persist, so the
fallible service operations return `KVStore × Except Err _` with the first
component the store as left behind. -/

def RoomService.joinRoom (kv : KVStore) (userID roomID : String) (now : Nat) :
    KVStore × Except Err (Option Room) :=
  if (getRoom kv roomID).any (fun r => !r.canJoin) then (kv, .error .roomIsFull)
  else
    match addUserToRoom kv roomID userID now with
    | .error e => (kv, .error e)
    | .ok kv1 =>
      match updateUserRoom kv1 userID roomID now with
      | .error e => (kv1, .error e)
      | .ok kv2 => (kv2, .ok (getRoom kv2 roomID))

def RoomService.leaveRoom (kv : KVStore) (userID roomID : String) (now : Nat) :
    KVStore × Except Err Unit :=
  let kv1 := removeUserFromRoom kv roomID userID now
  match updateUserRoom kv1 userID "" now with
  | .error e => (kv1, .error e)
  | .ok kv2 => (kv2, .ok ())

def RoomService.getRoomUsers (kv : KVStore) (roomID : String) : List String :=
  getRoomUsersRepo kv roomID

def RoomService.getOtherUsersInRoom (kv : KVStore) (roomID excludeUserID : String) : List String :=
  (RoomService.getRoomUsers kv roomID).filter (fun id => id != excludeUserID)

def RoomService.isRoomFull (kv : KVStore) (roomID : String) : Bool :=
  match getRoom kv roomID with
  | none => false
  | some r => !r.canJoin

example : (Room.addUser { id := "R", users := ["a"], createdAt := 0, updatedAt := 0 } "b" 3) =
    (true, { id := "R", users := ["a", "b"], createdAt := 0, updatedAt := 3 }) := by decide

/-! ## Messages (internal/model, src/unnamed/part_005) -/

def MessageTypeJoinRoom : String := "join_room"

def MessageTypeLeaveRoom : String := "leave_room"

def MessageTypeOffer : String := "offer"

def MessageTypeAnswer : String := "answer"

def MessageTypeIceCandidate : String := "ice_candidate"

def MessageTypeUserJoined : String := "user_joined"

def MessageTypeUserLeft : String := "user_left"

def MessageTypeRoomFull : String := "room_full"

def MessageTypeError : String := "error"

/-- The `data` field of a frame: json.RawMessage bytes, viewed up to the
injective JSON encodings the engine itself produces or consumes. Client
payload bytes the engine treats as opaque are `raw`. -/
inductive MsgData
  | empty
  | raw (bytes : String)
  | joinRoomD (roomID : String)
  | userJoinedD (userID : String) (users : List String)
  | userLeftD (userID : String) (users : List String)
  | errorD (code : Nat) (message : String)
deriving DecidableEq, Repr

structure Message where
  type : String
  roomID : String := ""
  userID : String := ""
  targetID : String := ""
  data : MsgData := .empty
  timestamp : Nat := 0
deriving DecidableEq, Repr

/-! ## Connection registry and signaling engine (internal/service/user.go) -/

/-- A connection record (model.User): the stream handle is identified by
the connection's user id. -/
structure Conn where
  id : String
  sessionID : String
  roomID : String := ""
deriving DecidableEq, Repr

structure SigState where
  connections : List (String × Conn)
  kv : KVStore
deriving DecidableEq, Repr

/-- A frame written to the stream owned by connection `stream`. -/
inductive Output
  | send (stream : String) (msg : Message)
deriving DecidableEq, Repr

def getConnection (s : SigState) (userID : String) : Option Conn :=
  List.lookup userID s.connections

/-- The engine mutating `user.RoomID` under `connMutex` (the Conn is shared
by pointer with the registry, so the registry entry changes too). -/
def setConnRoom (s : SigState) (userID roomID : String) : SigState :=
  { s with connections :=
      s.connections.map (fun p => if p.1 == userID then (p.1, { p.2 with roomID := roomID }) else p) }

def sendMessage (user : Conn) (msg : Message) : Output := .send user.id msg

def errorFrame (code : Nat) (message : String) (now : Nat) : Message :=
  { type := MessageTypeError, timestamp := now, data := .errorD code message }

def sendError (user : Conn) (code : Nat) (message : String) (now : Nat) : Output :=
  sendMessage user (errorFrame code message now)

/-- forwardToUser: outputs written plus the function's error return. -/
def forwardToUser (s : SigState) (targetUserID : String) (msg : Message) :
    List Output × Except Err Unit :=
  match getConnection s targetUserID with
  | none => ([], .error (.targetUserNotConnected targetUserID))
  | some target => ([sendMessage target msg], .ok ())

def broadcastToUsers (s : SigState) (userIDs : List String) (msg : Message) : List Output :=
  userIDs.filterMap (fun uid => (getConnection s uid).map (fun u => sendMessage u msg))

def filterConnectedUsers (s : SigState) (userIDs : List String) : List String :=
  userIDs.filter (fun uid => (getConnection s uid).isSome)

deriving instance DecidableEq for Except

/-- Result of a handler: the state it leaves, the frames it wrote, and its
Go error return. -/
structure HRes where
  state : SigState
  outputs : List Output
  result : Except Err Unit
deriving DecidableEq, Repr

/-- handleLeaveRoom. The Go `roomID` parameter is never read by the body
(the body uses user.RoomID throughout). -/
def handleLeaveRoom (s : SigState) (user : Conn) (_roomID : String) (now : Nat) : HRes :=
  if user.roomID = "" then { state := s, outputs := [], result := .ok () }
  else
    let otherUsers := RoomService.getOtherUsersInRoom s.kv user.roomID user.id
    match RoomService.leaveRoom s.kv user.id user.roomID now with
    | (kv1, .error _) =>
      { state := { s with kv := kv1 },
        outputs := [sendError user 500 "Failed to leave room" now],
        result := .ok () }
    | (kv1, .ok _) =>
      let oldRoomID := user.roomID
      let s1 := setConnRoom { s with kv := kv1 } user.id ""
      let outs :=
        if otherUsers.length > 0 then
          broadcastToUsers s1 otherUsers
            { type := MessageTypeUserLeft, roomID := oldRoomID, userID := user.id,
              timestamp := now, data := .userLeftD user.id otherUsers }
        else []
      { state := s1, outputs := outs, result := .ok () }

/-- cleanupDisconnectedUsersFromRoom: snapshot the room's members, then
issue a RoomService.LeaveRoom for each member without a local connection
(per-user errors are only logged). -/
def cleanupDisconnectedUsersFromRoom (s : SigState) (roomID : String) (now : Nat) : KVStore :=
  let roomUsers := RoomService.getRoomUsers s.kv roomID
  let disconnectedUsers := roomUsers.filter (fun uid => (getConnection s uid).isNone)
  disconnectedUsers.foldl (fun kv uid => (RoomService.leaveRoom kv uid roomID now).1) s.kv

/-- Lines 213-221 of handleJoinRoom: leave the previous room when it
differs from the target, then run the stale-member sweep on the target
room. Returns the resulting state and the frames written so far. -/
def joinPre (s : SigState) (user : Conn) (joinRoomID : String) (now : Nat) :
    SigState × List Output :=
  let p :=
    if user.roomID ≠ "" ∧ user.roomID ≠ joinRoomID then
      ((handleLeaveRoom s user user.roomID now).state, (handleLeaveRoom s user user.roomID now).outputs)
    else (s, [])
  ({ p.1 with kv := cleanupDisconnectedUsersFromRoom p.1 joinRoomID now }, p.2)

/-- The state after the successful join of handleJoinRoom: the store as
RoomService.JoinRoom left it, with the sender's cached room updated under
the registry lock (lines 242-251). -/
def joinS3 (s : SigState) (user : Conn) (rid : String) (now : Nat) : SigState :=
  let s2 := (joinPre s user rid now).1
  setConnRoom { s2 with kv := (RoomService.joinRoom s2.kv user.id rid now).1 } user.id rid

/-- Lines 256-262: the room's other members filtered to those with a local
connection. -/
def joinConnectedOthers (s : SigState) (user : Conn) (rid : String) (now : Nat) : List String :=
  filterConnectedUsers (joinS3 s user rid now)
    (RoomService.getOtherUsersInRoom (joinS3 s user rid now).kv rid user.id)

/-- The user-joined frame of lines 268-291: sent both to the connected
other members and, as the confirmation, to the joiner itself. -/
def joinEchoMsg (s : SigState) (user : Conn) (rid : String) (now : Nat) : Message :=
  { type := MessageTypeUserJoined, roomID := rid, userID := user.id, timestamp := now,
    data := .userJoinedD user.id (joinConnectedOthers s user rid now ++ [user.id]) }

def handleJoinRoom (s : SigState) (user : Conn) (msg : Message) (now : Nat) : HRes :=
  match msg.data with
  | .joinRoomD rid =>
    let pre := joinPre s user rid now
    if RoomService.isRoomFull pre.1.kv rid then
      { state := pre.1,
        outputs := pre.2 ++
          [sendMessage user { type := MessageTypeRoomFull, roomID := rid, timestamp := now }],
        result := .ok () }
    else
      match (RoomService.joinRoom pre.1.kv user.id rid now).2 with
      | .error _ =>
        { state := { pre.1 with kv := (RoomService.joinRoom pre.1.kv user.id rid now).1 },
          outputs := pre.2 ++ [sendError user 500 "Failed to join room" now],
          result := .ok () }
      | .ok _ =>
        let connected := joinConnectedOthers s user rid now
        let outs2 :=
          if connected.length > 0 then
            broadcastToUsers (joinS3 s user rid now) connected (joinEchoMsg s user rid now)
          else []
        { state := joinS3 s user rid now,
          outputs := pre.2 ++ outs2 ++ [sendMessage user (joinEchoMsg s user rid now)],
          result := .ok () }
  | _ => { state := s, outputs := [sendError user 400 "Invalid join room data" now], result := .ok () }

def handleOffer (s : SigState) (user : Conn) (msg : Message) (now : Nat) : HRes :=
  if user.roomID = "" then
    { state := s, outputs := [sendError user 400 "User not in a room" now], result := .ok () }
  else if msg.targetID ≠ "" then
    let fwd := forwardToUser s msg.targetID { msg with userID := user.id }
    { state := s, outputs := fwd.1, result := fwd.2 }
  else
    { state := s, outputs := [sendError user 400 "Target user ID required for offer" now],
      result := .ok () }

def handleAnswer (s : SigState) (user : Conn) (msg : Message) (now : Nat) : HRes :=
  if user.roomID = "" then
    { state := s, outputs := [sendError user 400 "User not in a room" now], result := .ok () }
  else if msg.targetID ≠ "" then
    let fwd := forwardToUser s msg.targetID { msg with userID := user.id }
    { state := s, outputs := fwd.1, result := fwd.2 }
  else
    { state := s, outputs := [sendError user 400 "Target user ID required for answer" now],
      result := .ok () }

def handleIceCandidate (s : SigState) (user : Conn) (msg : Message) (now : Nat) : HRes :=
  if user.roomID = "" then
    { state := s, outputs := [sendError user 400 "User not in a room" now], result := .ok () }
  else if msg.targetID ≠ "" then
    let fwd := forwardToUser s msg.targetID { msg with userID := user.id }
    { state := s, outputs := fwd.1, result := fwd.2 }
  else
    { state := s, outputs := [sendError user 400 "Target user ID required for ICE candidate" now],
      result := .ok () }

/-- HandleMessage. `parsed = none` is the json.Unmarshal failure of the
incoming bytes; otherwise the decoded frame is stamped with the sender's
id and the current timestamp and dispatched by kind. -/
def HandleMessage (s : SigState) (userID : String) (parsed : Option Message) (now : Nat) : HRes :=
  match parsed with
  | none => { state := s, outputs := [], result := .error .unmarshalFailed }
  | some msg0 =>
    let msg := { msg0 with userID := userID, timestamp := now }
    match getConnection s userID with
    | none => { state := s, outputs := [], result := .error (.userConnectionNotFound userID) }
    | some user =>
      if msg.type = MessageTypeJoinRoom then handleJoinRoom s user msg now
      else if msg.type = MessageTypeLeaveRoom then handleLeaveRoom s user msg.roomID now
      else if msg.type = MessageTypeOffer then handleOffer s user msg now
      else if msg.type = MessageTypeAnswer then handleAnswer s user msg now
      else if msg.type = MessageTypeIceCandidate then handleIceCandidate s user msg now
      else { state := s, outputs := [], result := .error (.unknownMessageType msg.type) }

/-- One reading of the transport handler's loop (handleConnection): a read
failure breaks the loop; a frame (well-formed or not) is handed to
HandleMessage, whose error is only logged — the loop continues. -/
inductive ReadEvent
  | frame (parsed : Option Message)
  | readFailure
deriving DecidableEq, Repr

def handleConnectionStep (s : SigState) (userID : String) (ev : ReadEvent) (now : Nat) :
    SigState × List Output × Bool :=
  match ev with
  | .readFailure => (s, [], false)
  | .frame parsed =>
    let r := HandleMessage s userID parsed now
    (r.state, r.outputs, true)

/-! ## Lock discipline of the connection registry (connMutex)

The sequence of connMutex acquisitions, shared-KV calls and stream writes
each code path performs, read off the source. `lockW`/`unlockW` are
connMutex.Lock/Unlock, `lockR`/`unlockR` are RLock/RUnlock. -/

inductive LockEv
  | lockW
  | unlockW
  | lockR
  | unlockR
  | kvCall (op : String)
  | streamWrite (target : String)
deriving DecidableEq, Repr

/-- GetConnection takes and releases the read lock (lines 161-167). -/
def getConnectionLockTrace : List LockEv := [.lockR, .unlockR]

/-- Lock-relevant events of handleLeaveRoom (lines 296-338): two KV
operations, the write-locked cached-room update, then the fan-out, whose
every recipient lookup goes through GetConnection and whose every delivery
writes to that peer's stream. `leaveFails` selects the branch where
RoomService.LeaveRoom returned an error and an error frame goes to the
sender instead. -/
def handleLeaveRoomLockTrace (userRoomID userID : String) (leaveFails : Bool)
    (others : List String) : List LockEv :=
  if userRoomID = "" then []
  else
    [.kvCall "GetOtherUsersInRoom", .kvCall "LeaveRoom"] ++
    (if leaveFails then [.streamWrite userID]
     else
       [.lockW, .unlockW] ++
       (if others.length > 0 then
         (others.map (fun uid => getConnectionLockTrace ++ [.streamWrite uid])).flatten
        else []))

/-- RemoveConnection (lines 144-158): takes connMutex.Lock, and — still
holding it — runs handleLeaveRoom when the departing user has a cached
room; the deferred Unlock releases only at the end. -/
def removeConnectionLockTrace (present : Bool) (userRoomID userID : String)
    (leaveFails : Bool) (others : List String) : List LockEv :=
  [.lockW] ++
  (if present then handleLeaveRoomLockTrace userRoomID userID leaveFails others else []) ++
  [.unlockW]

/-- Scans a trace with the connMutex write-hold depth; true when, while the
write lock is held, the trace performs a shared-KV call, a stream write, or
another acquisition of the same mutex (read or write — Go's sync.RWMutex
is not reentrant, so either self-deadlocks). -/
def lockViolation : Nat → List LockEv → Bool
  | _, [] => false
  | d, .lockW :: rest => decide (0 < d) || lockViolation (d + 1) rest
  | d, .unlockW :: rest => lockViolation (d - 1) rest
  | d, .lockR :: rest => decide (0 < d) || lockViolation d rest
  | d, .unlockR :: rest => lockViolation d rest
  | d, .kvCall _ :: rest => decide (0 < d) || lockViolation d rest
  | d, .streamWrite _ :: rest => decide (0 < d) || lockViolation d rest

/-! ## State well-formedness -/

/-- Registry well-formedness: a connection record's id is the key it is
registered under (AddConnection stores `user` at key `userID = user.ID`). -/
def WFConns (s : SigState) : Prop := ∀ p ∈ s.connections, p.2.id = p.1

/-- The room-record invariant of the spec: membership is duplicate-free
and bounded by MaxRoomUsers. -/
def RoomInv (r : Room) : Prop := r.users.Nodup ∧ r.users.length ≤ MaxRoomUsers

/-- Every room record persisted in the store satisfies RoomInv. -/
def KVRoomInv (kv : KVStore) : Prop := ∀ p ∈ kv.rooms, RoomInv p.2

/-- Records are stored under their own ids (SaveUser keys by user.ID,
SaveRoom by room.ID, so this holds of every store the code builds). -/
def KVKeysOk (kv : KVStore) : Prop :=
  (∀ p ∈ kv.users, p.2.id = p.1) ∧ (∀ p ∈ kv.rooms, p.2.id = p.1)

/-! ## Association-list lemmas -/

theorem lookup_mem {β : Type} {l : List (String × β)} {k : String} {v : β}
    (h : List.lookup k l = some v) : (k, v) ∈ l := by
  induction l with
  | nil => simp [List.lookup] at h
  | cons p t ih =>
    rw [List.lookup] at h
    by_cases hk : k = p.1
    · simp [hk] at h
      subst h hk
      exact List.mem_cons_self _ _
    · simp [beq_eq_false_iff_ne.mpr hk] at h
      exact List.mem_cons_of_mem _ (ih h)

theorem lookup_kvSet_self {β : Type} (l : List (String × β)) (k : String) (v : β) :
    List.lookup k (kvSet l k v) = some v := by
  simp [kvSet, List.lookup]

theorem lookup_filter_ne {β : Type} (l : List (String × β)) (k k' : String) (h : k' ≠ k) :
    List.lookup k' (l.filter (fun p => p.1 != k)) = List.lookup k' l := by
  induction l with
  | nil => simp
  | cons p t ih =>
    by_cases hp : p.1 = k
    · have : (p.1 != k) = false := by simp [hp]
      simp only [List.filter_cons, this, if_neg, Bool.false_eq_true, not_false_iff]
      rw [ih, List.lookup]
      have : (k' == p.1) = false := beq_eq_false_iff_ne.mpr (by rw [hp]; exact h)
      simp [this]
    · have : (p.1 != k) = true := bne_iff_ne.mpr hp
      simp only [List.filter_cons, this, if_pos]
      rw [List.lookup, List.lookup]
      cases hkk : (k' == p.1) with
      | true => rfl
      | false => exact ih

theorem lookup_kvSet_ne {β : Type} (l : List (String × β)) (k k' : String) (v : β)
    (h : k' ≠ k) : List.lookup k' (kvSet l k v) = List.lookup k' l := by
  rw [kvSet, List.lookup]
  have : (k' == k) = false := beq_eq_false_iff_ne.mpr h
  simp only [this]
  exact lookup_filter_ne l k k' h

theorem lookup_kvDel_self {β : Type} (l : List (String × β)) (k : String) :
    List.lookup k (kvDel l k) = none := by
  induction l with
  | nil => rfl
  | cons p t ih =>
    rw [kvDel, List.filter_cons]
    by_cases hp : p.1 = k
    · have hb : (p.1 != k) = false := by simp [hp]
      rw [hb]
      simp only [Bool.false_eq_true, if_false]
      exact ih
    · have hb : (p.1 != k) = true := bne_iff_ne.mpr hp
      rw [hb]
      simp only [if_pos]
      rw [List.lookup]
      have hk : (k == p.1) = false := beq_eq_false_iff_ne.mpr (fun hh => hp hh.symm)
      rw [hk]
      exact ih

theorem lookup_kvDel_ne {β : Type} (l : List (String × β)) (k k' : String) (h : k' ≠ k) :
    List.lookup k' (kvDel l k) = List.lookup k' l :=
  lookup_filter_ne l k k' h

/-! ## Concrete stores and states used by counterexamples and witnesses -/

def fullRoomR : Room :=
  { id := "R", users := ["u0", "u1", "u2", "u3", "u4", "u5", "u6", "u7", "u8", "u9"],
    createdAt := 0, updatedAt := 0 }

def kvFullR : KVStore := { users := [], rooms := [("R", fullRoomR)] }

def room9R : Room :=
  { id := "R", users := ["u0", "u1", "u2", "u3", "u4", "u5", "u6", "u7", "u8"],
    createdAt := 0, updatedAt := 0 }

/-! ## C2 — room-full failure of join -/

/-- C2 counterexample: the room R is at MaxRoomUsers members and u0 is
already one of them, yet JoinRoom still fails with the room-full error —
the Go code checks only CanJoin and never the membership of the joiner. -/
theorem c2_counterexample :
    "u0" ∈ fullRoomR.users ∧ fullRoomR.users.length = MaxRoomUsers ∧
    (RoomService.joinRoom kvFullR "u0" "R" 1).2 = Except.error Err.roomIsFull := by decide

theorem addUserToRoom_ok_of_canJoin (kv : KVStore) (roomID userID : String) (now : Nat)
    (r : Room) (hg : getRoom kv roomID = some r) (hcj : r.canJoin = true) :
    ∃ kv1, addUserToRoom kv roomID userID now = .ok kv1 := by
  by_cases hm : userID ∈ r.users
  · exact ⟨saveRoom kv r, by simp [addUserToRoom, hg, Room.addUser, hcj, hm]⟩
  · exact ⟨saveRoom kv { r with users := r.users ++ [userID], updatedAt := now },
      by simp [addUserToRoom, hg, Room.addUser, hcj, hm]⟩

theorem addUserToRoom_ok_of_absent (kv : KVStore) (roomID userID : String) (now : Nat)
    (hg : getRoom kv roomID = none) :
    ∃ kv1, addUserToRoom kv roomID userID now = .ok kv1 :=
  ⟨saveRoom kv { id := roomID, users := [userID], createdAt := now, updatedAt := now },
    by simp [addUserToRoom, hg, Room.addUser, Room.canJoin, MaxRoomUsers]⟩

theorem updateUserRoom_error_eq (kv : KVStore) (u rid : String) (now : Nat) (e : Err)
    (h : updateUserRoom kv u rid now = .error e) : e = .userNotFound u := by
  unfold updateUserRoom at h
  cases hg : getUser kv u with
  | none =>
    rw [hg] at h
    simp at h
    exact h.symm
  | some us =>
    rw [hg] at h
    simp at h

theorem joinRoom_not_roomFull (kv : KVStore) (userID roomID : String) (now : Nat)
    (hany : ((getRoom kv roomID).any fun r => !r.canJoin) = false)
    (kv1 : KVStore) (hok : addUserToRoom kv roomID userID now = .ok kv1) :
    (RoomService.joinRoom kv userID roomID now).2 ≠ Except.error Err.roomIsFull := by
  unfold RoomService.joinRoom
  rw [hany]
  simp only [Bool.false_eq_true, if_false, hok]
  cases hu : updateUserRoom kv1 userID roomID now with
  | error e =>
    have he := updateUserRoom_error_eq kv1 userID roomID now e hu
    subst he
    simp [hu]
  | ok kv2 =>
    simp [hu]

/-- C2 amended: JoinRoom fails with the room-full error exactly when the
room exists with MaxRoomUsers (or more) members — whether or not the
joining user is already a member. -/
theorem c2_amended_joinRoom_roomFull_iff (kv : KVStore) (userID roomID : String) (now : Nat) :
    (RoomService.joinRoom kv userID roomID now).2 = Except.error Err.roomIsFull ↔
    ∃ r, getRoom kv roomID = some r ∧ MaxRoomUsers ≤ r.users.length := by
  cases hg : getRoom kv roomID with
  | none =>
    constructor
    · intro h
      obtain ⟨kv1, hok⟩ := addUserToRoom_ok_of_absent kv roomID userID now hg
      have hany : ((getRoom kv roomID).any fun r => !r.canJoin) = false := by
        rw [hg]
        rfl
      exact absurd h (joinRoom_not_roomFull kv userID roomID now hany kv1 hok)
    · rintro ⟨r, hr, -⟩
      exact Option.noConfusion hr
  | some r =>
    by_cases hcj : r.canJoin = true
    · constructor
      · intro h
        obtain ⟨kv1, hok⟩ := addUserToRoom_ok_of_canJoin kv roomID userID now r hg hcj
        have hany : ((getRoom kv roomID).any fun r => !r.canJoin) = false := by
          rw [hg]
          simp [Option.any, hcj]
        exact absurd h (joinRoom_not_roomFull kv userID roomID now hany kv1 hok)
      · rintro ⟨r1, hr1, hlen⟩
        injection hr1 with hr2
        rw [← hr2] at hlen
        have hlt : r.users.length < MaxRoomUsers := by
          have hc := hcj
          unfold Room.canJoin at hc
          exact of_decide_eq_true hc
        exact absurd hlen (Nat.not_le.mpr hlt)
    · have hb : r.canJoin = false := by
        cases h : r.canJoin
        · rfl
        · exact absurd h hcj
      have hlen : MaxRoomUsers ≤ r.users.length := by
        have hb1 := hb
        unfold Room.canJoin at hb1
        exact Nat.not_lt.mp (of_decide_eq_false hb1)
      have hres : (RoomService.joinRoom kv userID roomID now).2 = Except.error Err.roomIsFull := by
        unfold RoomService.joinRoom
        rw [hg]
        simp [Option.any, hb]
      rw [hres]
      exact ⟨fun _ => ⟨r, rfl, hlen⟩, fun _ => rfl⟩


/-! ## C1 and C9 — engine error propagation to the sender -/

def ghostTargetState : SigState :=
  { connections := [("a", { id := "a", sessionID := "sa", roomID := "R" })],
    kv := { users := [], rooms := [] } }

def ghostOfferMsg : Message := { type := MessageTypeOffer, targetID := "ghost", data := .raw "X" }

/-- C1 counterexample: sender a, in room R, sends an offer to the
unconnected target "ghost". The engine writes no frame at all — in
particular no error frame to a — it only returns the
target-user-not-connected error, which the transport loop logs while the
stream continues. -/
theorem c1_counterexample :
    (handleConnectionStep ghostTargetState "a" (.frame (some ghostOfferMsg)) 5).2.1 = [] ∧
    (handleConnectionStep ghostTargetState "a" (.frame (some ghostOfferMsg)) 5).2.2 = true ∧
    (HandleMessage ghostTargetState "a" (some ghostOfferMsg) 5).result =
      Except.error (Err.targetUserNotConnected "ghost") := by decide

/-- C1 amended: for an offer, answer or ice_candidate whose target has no
local connection, the engine returns the error whose message is
"target user not connected: <id>" to the transport loop (which logs it),
writes no frame to anyone — in particular no error frame to the sender —
and the sender's stream is not terminated by this condition. -/
theorem c1_amended_dead_target_logged_only (s : SigState) (uid : String) (user : Conn)
    (msg : Message) (now : Nat)
    (hconn : getConnection s uid = some user)
    (hroom : user.roomID ≠ "")
    (hty : msg.type = MessageTypeOffer ∨ msg.type = MessageTypeAnswer ∨
      msg.type = MessageTypeIceCandidate)
    (htgt : msg.targetID ≠ "")
    (hmiss : getConnection s msg.targetID = none) :
    (HandleMessage s uid (some msg) now).outputs = [] ∧
    (HandleMessage s uid (some msg) now).result =
      Except.error (Err.targetUserNotConnected msg.targetID) ∧
    (Err.targetUserNotConnected msg.targetID).message =
      "target user not connected: " ++ msg.targetID ∧
    (handleConnectionStep s uid (.frame (some msg)) now).2.2 = true := by
  rcases hty with h | h | h <;>
    simp [HandleMessage, handleConnectionStep, hconn, h, MessageTypeJoinRoom, MessageTypeLeaveRoom,
      MessageTypeOffer, MessageTypeAnswer, MessageTypeIceCandidate, handleOffer, handleAnswer,
      handleIceCandidate, forwardToUser, hmiss, hroom, htgt, Err.message]

/-- C1 witness at the concrete dead-target scenario. -/
theorem c1_witness :
    (HandleMessage ghostTargetState "a" (some ghostOfferMsg) 5).outputs = [] ∧
    (HandleMessage ghostTargetState "a" (some ghostOfferMsg) 5).result =
      Except.error (Err.targetUserNotConnected "ghost") ∧
    (Err.targetUserNotConnected "ghost").message = "target user not connected: " ++ "ghost" ∧
    (handleConnectionStep ghostTargetState "a" (.frame (some ghostOfferMsg)) 5).2.2 = true :=
  c1_amended_dead_target_logged_only ghostTargetState "a"
    { id := "a", sessionID := "sa", roomID := "R" } ghostOfferMsg 5 rfl (by decide)
    (Or.inl rfl) (by decide) rfl

/-- C9 counterexample: an unparseable frame produces no outbound frame at
all — no 400-coded error frame reaches the sender; the engine's error is
only logged and the loop continues. -/
theorem c9_counterexample :
    (handleConnectionStep ghostTargetState "a" (.frame none) 5).2.1 = [] ∧
    (handleConnectionStep ghostTargetState "a" (.frame none) 5).2.2 = true ∧
    (HandleMessage ghostTargetState "a" none 5).result = Except.error Err.unmarshalFailed := by
  decide

/-- C9 amended: a frame that fails to parse, and a frame of an unhandled
kind, each make HandleMessage return an error and write no frame to the
sender; the transport loop logs the error and continues processing the
stream. -/
theorem c9_amended_bad_frames_logged_only (s : SigState) (uid : String) (msg : Message) (now : Nat)
    (hk1 : msg.type ≠ MessageTypeJoinRoom) (hk2 : msg.type ≠ MessageTypeLeaveRoom)
    (hk3 : msg.type ≠ MessageTypeOffer) (hk4 : msg.type ≠ MessageTypeAnswer)
    (hk5 : msg.type ≠ MessageTypeIceCandidate) :
    (HandleMessage s uid none now).outputs = [] ∧
    (HandleMessage s uid none now).result = Except.error Err.unmarshalFailed ∧
    (handleConnectionStep s uid (.frame none) now).2.2 = true ∧
    (HandleMessage s uid (some msg) now).outputs = [] ∧
    (∃ e, (HandleMessage s uid (some msg) now).result = Except.error e) ∧
    (handleConnectionStep s uid (.frame (some msg)) now).2.2 = true := by
  refine ⟨by simp [HandleMessage], by simp [HandleMessage],
    by simp [handleConnectionStep], ?_, ?_, by simp [handleConnectionStep]⟩ <;>
  · cases hc : getConnection s uid with
    | none => simp [HandleMessage, hc, hk1, hk2, hk3, hk4, hk5]
    | some user => simp [HandleMessage, hc, hk1, hk2, hk3, hk4, hk5]

/-- C9 witness: the parse-failure case and a concrete unhandled kind
"bogus" at the concrete state. -/
theorem c9_witness :
    (HandleMessage ghostTargetState "a" none 5).outputs = [] ∧
    (HandleMessage ghostTargetState "a" none 5).result = Except.error Err.unmarshalFailed ∧
    (handleConnectionStep ghostTargetState "a" (.frame none) 5).2.2 = true ∧
    (HandleMessage ghostTargetState "a" (some { type := "bogus" }) 5).outputs = [] ∧
    (∃ e, (HandleMessage ghostTargetState "a" (some { type := "bogus" }) 5).result =
      Except.error e) ∧
    (handleConnectionStep ghostTargetState "a" (.frame (some { type := "bogus" })) 5).2.2 = true :=
  c9_amended_bad_frames_logged_only ghostTargetState "a" { type := "bogus" } 5
    (by decide) (by decide) (by decide) (by decide) (by decide)

/-! ## C6 — the room-record invariant -/

theorem RoomInv_addUser (r : Room) (u : String) (now : Nat) (h : RoomInv r) :
    RoomInv (r.addUser u now).2 := by
  unfold Room.addUser
  by_cases hc : r.canJoin = true
  · rw [hc]
    simp only [Bool.not_true, Bool.false_eq_true, if_false]
    by_cases hm : u ∈ r.users
    · simpa [hm] using h
    · simp only [hm, if_false]
      constructor
      · rw [List.nodup_append]
        refine ⟨h.1, List.nodup_singleton u, ?_⟩
        intro a ha hb
        rw [List.mem_singleton] at hb
        subst hb
        exact hm ha
      · have hlt : r.users.length < MaxRoomUsers := by
          have hc1 := hc
          unfold Room.canJoin at hc1
          exact of_decide_eq_true hc1
        simpa [List.length_append] using Nat.succ_le_of_lt hlt
  · have hb : r.canJoin = false := by
      cases hcc : r.canJoin
      · rfl
      · exact absurd hcc hc
    rw [hb]
    simpa using h

theorem RoomInv_removeUser (r : Room) (u : String) (now : Nat) (h : RoomInv r) :
    RoomInv (r.removeUser u now).2 := by
  unfold Room.removeUser
  by_cases hm : u ∈ r.users
  · simp only [hm, if_true]
    refine ⟨h.1.erase u, ?_⟩
    exact le_trans (List.Sublist.length_le (r.users.erase_sublist u)) h.2
  · simpa [hm] using h

theorem KVRoomInv_of_getRoom (kv : KVStore) (rid : String) (r : Room)
    (h : KVRoomInv kv) (hg : getRoom kv rid = some r) : RoomInv r :=
  h (rid, r) (lookup_mem hg)

theorem KVRoomInv_saveRoom (kv : KVStore) (r : Room) (h : KVRoomInv kv) (hr : RoomInv r) :
    KVRoomInv (saveRoom kv r) := by
  intro p hp
  rw [saveRoom] at hp
  simp only [kvSet] at hp
  rcases List.mem_cons.mp hp with h1 | h1
  · rw [h1]
    exact hr
  · exact h p (List.mem_of_mem_filter h1)

theorem KVRoomInv_deleteRoom (kv : KVStore) (rid : String) (h : KVRoomInv kv) :
    KVRoomInv (deleteRoom kv rid) := by
  intro p hp
  rw [deleteRoom] at hp
  exact h p (List.mem_of_mem_filter hp)

theorem KVRoomInv_addUserToRoom (kv : KVStore) (rid uid : String) (now : Nat)
    (h : KVRoomInv kv) :
    ∀ kv1, addUserToRoom kv rid uid now = .ok kv1 → KVRoomInv kv1 := by
  intro kv1 hok
  unfold addUserToRoom at hok
  cases hg : getRoom kv rid with
  | some r =>
    rw [hg] at hok
    simp only at hok
    by_cases hfst : (r.addUser uid now).1 = true
    · rw [if_pos hfst] at hok
      injection hok with hok1
      rw [← hok1]
      exact KVRoomInv_saveRoom kv _ h (RoomInv_addUser r uid now (KVRoomInv_of_getRoom kv rid r h hg))
    · rw [if_neg hfst] at hok
      exact Except.noConfusion hok
  | none =>
    rw [hg] at hok
    simp only at hok
    have hempty : RoomInv { id := rid, users := [], createdAt := now, updatedAt := now } := by
      constructor
      · exact List.nodup_nil
      · simp [MaxRoomUsers]
    by_cases hfst :
        (Room.addUser { id := rid, users := [], createdAt := now, updatedAt := now } uid now).1 = true
    · rw [if_pos hfst] at hok
      injection hok with hok1
      rw [← hok1]
      exact KVRoomInv_saveRoom kv _ h (RoomInv_addUser _ uid now hempty)
    · rw [if_neg hfst] at hok
      exact Except.noConfusion hok

theorem KVRoomInv_removeUserFromRoom (kv : KVStore) (rid uid : String) (now : Nat)
    (h : KVRoomInv kv) : KVRoomInv (removeUserFromRoom kv rid uid now) := by
  unfold removeUserFromRoom
  cases hg : getRoom kv rid with
  | none => exact h
  | some r =>
    simp only
    by_cases he : ((r.removeUser uid now).2.isEmpty) = true
    · rw [if_pos he]
      exact KVRoomInv_deleteRoom kv rid h
    · rw [if_neg he]
      exact KVRoomInv_saveRoom kv _ h (RoomInv_removeUser r uid now (KVRoomInv_of_getRoom kv rid r h hg))

theorem rooms_updateUserRoom (kv kv2 : KVStore) (u rid : String) (now : Nat)
    (h : updateUserRoom kv u rid now = .ok kv2) : kv2.rooms = kv.rooms := by
  unfold updateUserRoom at h
  cases hg : getUser kv u with
  | none =>
    rw [hg] at h
    exact Except.noConfusion h
  | some us =>
    rw [hg] at h
    injection h with h1
    rw [← h1]
    rfl

theorem KVRoomInv_rooms_eq (kv kv2 : KVStore) (h : KVRoomInv kv) (he : kv2.rooms = kv.rooms) :
    KVRoomInv kv2 := by
  intro p hp
  rw [he] at hp
  exact h p hp

/-- C6: the room-record invariant — duplicate-free membership of size at
most MaxRoomUsers = 10 — is preserved by AddUserToRoom and
RemoveUserFromRoom and by the room-service operations built on them
(JoinRoom including the stores its failure paths leave behind, and
LeaveRoom). -/
theorem c6_room_invariant (kv : KVStore) (rid uid : String) (now : Nat) (hinv : KVRoomInv kv) :
    MaxRoomUsers = 10 ∧
    (∀ kv1, addUserToRoom kv rid uid now = .ok kv1 → KVRoomInv kv1) ∧
    KVRoomInv (removeUserFromRoom kv rid uid now) ∧
    KVRoomInv (RoomService.joinRoom kv uid rid now).1 ∧
    KVRoomInv (RoomService.leaveRoom kv uid rid now).1 := by
  refine ⟨rfl, KVRoomInv_addUserToRoom kv rid uid now hinv,
    KVRoomInv_removeUserFromRoom kv rid uid now hinv, ?_, ?_⟩
  · unfold RoomService.joinRoom
    split
    · exact hinv
    · split
      · exact hinv
      · rename_i kv1 ha
        split
        · exact KVRoomInv_addUserToRoom kv rid uid now hinv kv1 ha
        · rename_i kv2 hu
          exact KVRoomInv_rooms_eq kv1 kv2 (KVRoomInv_addUserToRoom kv rid uid now hinv kv1 ha)
            (rooms_updateUserRoom kv1 kv2 uid rid now hu)
  · unfold RoomService.leaveRoom
    dsimp only
    split
    · exact KVRoomInv_removeUserFromRoom kv rid uid now hinv
    · rename_i kv2 hu
      exact KVRoomInv_rooms_eq _ kv2 (KVRoomInv_removeUserFromRoom kv rid uid now hinv)
        (rooms_updateUserRoom _ kv2 uid "" now hu)

/-- C6 witness: the invariant-preservation conjunction at a concrete
store holding a full, duplicate-free room. -/
theorem c6_witness :
    MaxRoomUsers = 10 ∧
    (∀ kv1, addUserToRoom kvFullR "R" "u0" 2 = .ok kv1 → KVRoomInv kv1) ∧
    KVRoomInv (removeUserFromRoom kvFullR "R" "u0" 2) ∧
    KVRoomInv (RoomService.joinRoom kvFullR "u0" "R" 2).1 ∧
    KVRoomInv (RoomService.leaveRoom kvFullR "u0" "R" 2).1 :=
  c6_room_invariant kvFullR "R" "u0" 2 (by unfold KVRoomInv RoomInv; decide)

/-! ## C8 — leave-room semantics and idempotence -/

theorem users_removeUserFromRoom (kv : KVStore) (rid uid : String) (now : Nat) :
    (removeUserFromRoom kv rid uid now).users = kv.users := by
  unfold removeUserFromRoom
  split
  · rfl
  · dsimp only
    split
    · rfl
    · rfl

theorem getRoom_saveUser (kv : KVStore) (u : UserSession) (rid : String) :
    getRoom (saveUser kv u) rid = getRoom kv rid := rfl

/-- C8: RoomService.LeaveRoom succeeds, removes the user from the room
record (deleting the record entirely when the member set becomes empty),
then clears the user's current room; and it is idempotent — leaving a room
that does not contain the user, or a room that does not exist, leaves the
room store pointwise unchanged while still returning success. Stated for
stores satisfying the key and room invariants the code maintains, with the
user record present (UpdateUserRoom requires it). -/
theorem c8_leaveRoom_correct (kv : KVStore) (u r : String) (now : Nat) (us : UserSession)
    (hkeys : KVKeysOk kv) (hinv : KVRoomInv kv) (hu : getUser kv u = some us) :
    (RoomService.leaveRoom kv u r now).2 = Except.ok () ∧
    getUser (RoomService.leaveRoom kv u r now).1 u =
      some { us with roomID := "", lastSeen := now } ∧
    (getRoom kv r = none →
      ∀ rid2, getRoom (RoomService.leaveRoom kv u r now).1 rid2 = getRoom kv rid2) ∧
    (∀ rm, getRoom kv r = some rm → u ∈ rm.users →
      if rm.users.erase u = [] then getRoom (RoomService.leaveRoom kv u r now).1 r = none
      else ∃ rm1, getRoom (RoomService.leaveRoom kv u r now).1 r = some rm1 ∧
        rm1.users = rm.users.erase u ∧ u ∉ rm1.users) ∧
    (∀ rm, getRoom kv r = some rm → u ∉ rm.users → rm.users ≠ [] →
      ∀ rid2, getRoom (RoomService.leaveRoom kv u r now).1 rid2 = getRoom kv rid2) := by
  have husid : us.id = u := hkeys.1 (u, us) (lookup_mem hu)
  have hgu1 : getUser (removeUserFromRoom kv r u now) u = some us := by
    unfold getUser
    rw [users_removeUserFromRoom]
    exact hu
  have hupd : updateUserRoom (removeUserFromRoom kv r u now) u "" now =
      .ok (saveUser (removeUserFromRoom kv r u now) { us with roomID := "", lastSeen := now }) := by
    unfold updateUserRoom
    rw [hgu1]
  have hres : RoomService.leaveRoom kv u r now =
      (saveUser (removeUserFromRoom kv r u now) { us with roomID := "", lastSeen := now },
        .ok ()) := by
    unfold RoomService.leaveRoom
    dsimp only
    rw [hupd]
  refine ⟨by rw [hres], ?_, ?_, ?_, ?_⟩
  · rw [hres]
    show List.lookup u (kvSet (removeUserFromRoom kv r u now).users
      ({ us with roomID := "", lastSeen := now } : UserSession).id
      { us with roomID := "", lastSeen := now }) = _
    have : ({ us with roomID := "", lastSeen := now } : UserSession).id = u := husid
    rw [this, lookup_kvSet_self]
  · intro hnone rid2
    rw [hres]
    rw [getRoom_saveUser]
    have hkv1 : removeUserFromRoom kv r u now = kv := by
      unfold removeUserFromRoom
      rw [hnone]
    rw [hkv1]
  · intro rm hg hm
    have hmid : rm.id = r := hkeys.2 (r, rm) (lookup_mem hg)
    have hkv1 : removeUserFromRoom kv r u now =
        (if (rm.users.erase u).isEmpty then deleteRoom kv r
         else saveRoom kv { rm with users := rm.users.erase u, updatedAt := now }) := by
      unfold removeUserFromRoom
      rw [hg]
      dsimp only
      rw [Room.removeUser, if_pos hm]
      rfl
    by_cases he : rm.users.erase u = []
    · rw [if_pos he]
      rw [hres, getRoom_saveUser, hkv1]
      have : (rm.users.erase u).isEmpty = true := by
        rw [he]
        rfl
      rw [if_pos this]
      exact lookup_kvDel_self kv.rooms r
    · rw [if_neg he]
      refine ⟨{ rm with users := rm.users.erase u, updatedAt := now }, ?_, rfl, ?_⟩
      · rw [hres, getRoom_saveUser, hkv1]
        have : (rm.users.erase u).isEmpty = false := by
          cases hcc : rm.users.erase u with
          | nil => exact absurd hcc he
          | cons x xs => rfl
        rw [if_neg (by rw [this]; exact Bool.false_ne_true)]
        show List.lookup r (kvSet kv.rooms
          ({ rm with users := rm.users.erase u, updatedAt := now } : Room).id _) = _
        have hid2 : ({ rm with users := rm.users.erase u, updatedAt := now } : Room).id = r := hmid
        rw [hid2, lookup_kvSet_self]
      · have hnodup : rm.users.Nodup := (KVRoomInv_of_getRoom kv r rm hinv hg).1
        simp [List.Nodup.mem_erase_iff hnodup]
  · intro rm hg hm hne rid2
    have hmid : rm.id = r := hkeys.2 (r, rm) (lookup_mem hg)
    have hkv1 : removeUserFromRoom kv r u now = saveRoom kv rm := by
      unfold removeUserFromRoom
      rw [hg]
      dsimp only
      rw [Room.removeUser, if_neg hm]
      have : rm.isEmpty = false := by
        unfold Room.isEmpty
        cases hcc : rm.users with
        | nil => exact absurd hcc hne
        | cons x xs => rfl
      rw [if_neg (by rw [this]; exact Bool.false_ne_true)]
    rw [hres, getRoom_saveUser, hkv1]
    by_cases hrid : rid2 = r
    · subst hrid
      show List.lookup rid2 (kvSet kv.rooms rm.id rm) = _
      rw [hmid, lookup_kvSet_self, hg]
    · show List.lookup rid2 (kvSet kv.rooms rm.id rm) = _
      rw [hmid, lookup_kvSet_ne kv.rooms r rid2 rm hrid]
      rfl

def kvLeaveW : KVStore :=
  { users := [("a", { id := "a", sessionID := "sa", roomID := "R" })],
    rooms := [("R", { id := "R", users := ["a", "b"], createdAt := 0, updatedAt := 0 })] }

/-- C8 witness: a concrete store with user a in room R = \{a, b\}. -/
theorem c8_witness :
    (RoomService.leaveRoom kvLeaveW "a" "R" 4).2 = Except.ok () ∧
    getUser (RoomService.leaveRoom kvLeaveW "a" "R" 4).1 "a" =
      some { id := "a", sessionID := "sa", roomID := "", createdAt := 0, lastSeen := 4 } ∧
    (getRoom kvLeaveW "R" = none →
      ∀ rid2, getRoom (RoomService.leaveRoom kvLeaveW "a" "R" 4).1 rid2 = getRoom kvLeaveW rid2) ∧
    (∀ rm, getRoom kvLeaveW "R" = some rm → "a" ∈ rm.users →
      if rm.users.erase "a" = [] then getRoom (RoomService.leaveRoom kvLeaveW "a" "R" 4).1 "R" = none
      else ∃ rm1, getRoom (RoomService.leaveRoom kvLeaveW "a" "R" 4).1 "R" = some rm1 ∧
        rm1.users = rm.users.erase "a" ∧ "a" ∉ rm1.users) ∧
    (∀ rm, getRoom kvLeaveW "R" = some rm → "a" ∉ rm.users → rm.users ≠ [] →
      ∀ rid2, getRoom (RoomService.leaveRoom kvLeaveW "a" "R" 4).1 rid2 = getRoom kvLeaveW rid2) :=
  c8_leaveRoom_correct kvLeaveW "a" "R" 4 { id := "a", sessionID := "sa", roomID := "R" }
    (by unfold KVKeysOk; constructor <;> decide) (by unfold KVRoomInv RoomInv; decide) rfl

/-! ## C4 — point-to-point relay delivery -/

def relayState : SigState :=
  { connections := [("a", { id := "a", sessionID := "sa", roomID := "R" }),
                    ("b", { id := "b", sessionID := "sb", roomID := "R" })],
    kv := { users := [], rooms := [] } }

def relayMsg : Message := { type := MessageTypeOffer, targetID := "b", data := .raw "SDP" }

/-- C4: an offer, answer or ice_candidate from a sender in a room, whose
target has a connection registered at dispatch time, is delivered to
exactly that target, stamped with the sender's user id and with the data
payload bytes unchanged. -/
theorem c4_relay_delivers (s : SigState) (uid : String) (user target : Conn) (msg : Message)
    (now : Nat)
    (hwf : WFConns s)
    (hconn : getConnection s uid = some user)
    (hty : msg.type = MessageTypeOffer ∨ msg.type = MessageTypeAnswer ∨
      msg.type = MessageTypeIceCandidate)
    (hroom : user.roomID ≠ "")
    (htid : msg.targetID ≠ "")
    (htgt : getConnection s msg.targetID = some target) :
    (HandleMessage s uid (some msg) now).outputs =
      [Output.send msg.targetID { msg with userID := uid, timestamp := now }] ∧
    (HandleMessage s uid (some msg) now).result = Except.ok () ∧
    ({ msg with userID := uid, timestamp := now } : Message).data = msg.data ∧
    ({ msg with userID := uid, timestamp := now } : Message).userID = uid := by
  have huid : user.id = uid := hwf (uid, user) (lookup_mem hconn)
  have htid2 : target.id = msg.targetID := hwf (msg.targetID, target) (lookup_mem htgt)
  rcases hty with h | h | h <;>
    simp [HandleMessage, hconn, h, MessageTypeJoinRoom, MessageTypeLeaveRoom, MessageTypeOffer,
      MessageTypeAnswer, MessageTypeIceCandidate, handleOffer, handleAnswer, handleIceCandidate,
      forwardToUser, htgt, hroom, htid, sendMessage, huid, htid2]

/-- C4 witness: a offers to connected b; b receives the frame with
user_id a and the payload bytes unchanged. -/
theorem c4_witness :
    (HandleMessage relayState "a" (some relayMsg) 7).outputs =
      [Output.send "b" { relayMsg with userID := "a", timestamp := 7 }] ∧
    (HandleMessage relayState "a" (some relayMsg) 7).result = Except.ok () ∧
    ({ relayMsg with userID := "a", timestamp := 7 } : Message).data = relayMsg.data ∧
    ({ relayMsg with userID := "a", timestamp := 7 } : Message).userID = "a" :=
  c4_relay_delivers relayState "a" { id := "a", sessionID := "sa", roomID := "R" }
    { id := "b", sessionID := "sb", roomID := "R" } relayMsg 7
    (by unfold WFConns; decide) rfl (Or.inl rfl) (by decide) (by decide) rfl

/-! ## C5 — no self-notify in user_joined fan-out -/

def twoUserState : SigState :=
  { connections := [("a", { id := "a", sessionID := "sa", roomID := "R" }),
                    ("b", { id := "b", sessionID := "sb", roomID := "" })],
    kv := { users := [("a", { id := "a", sessionID := "sa" }),
                      ("b", { id := "b", sessionID := "sb" })],
            rooms := [("R", { id := "R", users := ["a"], createdAt := 0, updatedAt := 0 })] } }

def joinRMsg : Message := { type := MessageTypeJoinRoom, data := .joinRoomD "R" }

def c5EchoMsg : Message :=
  { type := MessageTypeUserJoined, roomID := "R", userID := "b", timestamp := 3,
    data := .userJoinedD "b" ["a", "b"] }

/-- C5 counterexample: when b joins room R where a is connected, the
user_joined frame fanned out to the peer a carries the users list
["a", "b"], which contains both the joiner b and the recipient a — so a
user does appear in the users list of a user_joined frame broadcast to
their peers, not only in the echo to themselves. -/
theorem c5_counterexample :
    (HandleMessage twoUserState "b" (some joinRMsg) 3).outputs =
      [Output.send "a" c5EchoMsg, Output.send "b" c5EchoMsg] ∧
    c5EchoMsg.type = MessageTypeUserJoined ∧
    c5EchoMsg.data = MsgData.userJoinedD "b" ["a", "b"] ∧
    "b" ∈ ["a", "b"] ∧ "a" ∈ ["a", "b"] ∧ "a" ≠ "b" := by decide

theorem mem_broadcast (s : SigState) (uids : List String) (m : Message) (o : Output)
    (h : o ∈ broadcastToUsers s uids m) :
    ∃ uid c, uid ∈ uids ∧ getConnection s uid = some c ∧ o = Output.send c.id m := by
  unfold broadcastToUsers at h
  rw [List.mem_filterMap] at h
  obtain ⟨uid, huid, hmap⟩ := h
  cases hc : getConnection s uid with
  | none =>
    rw [hc] at hmap
    exact Option.noConfusion hmap
  | some c =>
    rw [hc] at hmap
    have hm : sendMessage c m = o := by
      have := hmap
      simp only [Option.map] at this
      exact Option.some.inj this
    exact ⟨uid, c, huid, hc, hm.symm⟩

theorem handleLeaveRoom_outputs_type (s : SigState) (user : Conn) (rid1 : String) (now : Nat) :
    ∀ x m, Output.send x m ∈ (handleLeaveRoom s user rid1 now).outputs →
      m.type = MessageTypeUserLeft ∨ m.type = MessageTypeError := by
  intro x m hm
  unfold handleLeaveRoom at hm
  split at hm
  · exact absurd hm (List.not_mem_nil _)
  · split at hm
    · simp only [sendError, sendMessage, errorFrame, List.mem_singleton] at hm
      injection hm with h1 h2
      rw [h2]
      right
      rfl
    · dsimp only at hm
      split at hm
      · obtain ⟨uid, c, -, -, ho⟩ := mem_broadcast _ _ _ _ hm
        injection ho with h1 h2
        rw [h2]
        left
        rfl
      · exact absurd hm (List.not_mem_nil _)

theorem joinPre_outputs_type (s : SigState) (user : Conn) (rid : String) (now : Nat) :
    ∀ x m, Output.send x m ∈ (joinPre s user rid now).2 →
      m.type = MessageTypeUserLeft ∨ m.type = MessageTypeError := by
  intro x m hm
  unfold joinPre at hm
  dsimp only at hm
  split at hm
  · exact handleLeaveRoom_outputs_type s user user.roomID now x m hm
  · exact absurd hm (List.not_mem_nil _)

/-- Every user_joined frame handleJoinRoom writes carries the joiner's own
id in its user_id field. -/
theorem handleJoinRoom_userJoined_userID (s : SigState) (user : Conn) (msg : Message) (now : Nat) :
    ∀ x m, Output.send x m ∈ (handleJoinRoom s user msg now).outputs →
      m.type = MessageTypeUserJoined → m.userID = user.id := by
  intro x m hm hty
  unfold handleJoinRoom at hm
  split at hm
  · rename_i rid hdata
    dsimp only at hm
    split at hm
    · rw [List.mem_append] at hm
      rcases hm with hm | hm
      · rcases joinPre_outputs_type s user rid now x m hm with h | h <;>
          rw [hty] at h <;> exact absurd h (by decide)
      · simp only [sendMessage, List.mem_singleton] at hm
        injection hm with h1 h2
        rw [h2] at hty
        dsimp only at hty
        exact absurd hty (by decide)
    · split at hm
      · rw [List.mem_append] at hm
        rcases hm with hm | hm
        · rcases joinPre_outputs_type s user rid now x m hm with h | h <;>
            rw [hty] at h <;> exact absurd h (by decide)
        · simp only [sendError, sendMessage, errorFrame, List.mem_singleton] at hm
          injection hm with h1 h2
          rw [h2] at hty
          dsimp only at hty
          exact absurd hty (by decide)
      · rw [List.mem_append, List.mem_append] at hm
        rcases hm with (hm | hm) | hm
        · rcases joinPre_outputs_type s user rid now x m hm with h | h <;>
            rw [hty] at h <;> exact absurd h (by decide)
        · split at hm
          · obtain ⟨uid, c, -, -, ho⟩ := mem_broadcast _ _ _ _ hm
            injection ho with h1 h2
            rw [h2]
            rfl
          · exact absurd hm (List.not_mem_nil _)
        · simp only [sendMessage, List.mem_singleton] at hm
          injection hm with h1 h2
          rw [h2]
          rfl
  · simp only [sendError, sendMessage, errorFrame, List.mem_singleton] at hm
    injection hm with h1 h2
    rw [h2] at hty
    dsimp only at hty
    exact absurd hty (by decide)

theorem handleOffer_outputs_type (s : SigState) (user : Conn) (msg : Message) (now : Nat) :
    ∀ x m, Output.send x m ∈ (handleOffer s user msg now).outputs →
      m.type = MessageTypeError ∨ m.type = msg.type := by
  intro x m hm
  unfold handleOffer at hm
  split at hm
  · simp only [sendError, sendMessage, errorFrame, List.mem_singleton] at hm
    injection hm with h1 h2
    rw [h2]
    left
    rfl
  · split at hm
    · dsimp only at hm
      unfold forwardToUser at hm
      cases hc : getConnection s msg.targetID with
      | none =>
        rw [hc] at hm
        exact absurd hm (List.not_mem_nil _)
      | some t =>
        rw [hc] at hm
        simp only [sendMessage, List.mem_singleton] at hm
        injection hm with h1 h2
        rw [h2]
        right
        rfl
    · simp only [sendError, sendMessage, errorFrame, List.mem_singleton] at hm
      injection hm with h1 h2
      rw [h2]
      left
      rfl

theorem handleAnswer_outputs_type (s : SigState) (user : Conn) (msg : Message) (now : Nat) :
    ∀ x m, Output.send x m ∈ (handleAnswer s user msg now).outputs →
      m.type = MessageTypeError ∨ m.type = msg.type := by
  intro x m hm
  unfold handleAnswer at hm
  split at hm
  · simp only [sendError, sendMessage, errorFrame, List.mem_singleton] at hm
    injection hm with h1 h2
    rw [h2]
    left
    rfl
  · split at hm
    · dsimp only at hm
      unfold forwardToUser at hm
      cases hc : getConnection s msg.targetID with
      | none =>
        rw [hc] at hm
        exact absurd hm (List.not_mem_nil _)
      | some t =>
        rw [hc] at hm
        simp only [sendMessage, List.mem_singleton] at hm
        injection hm with h1 h2
        rw [h2]
        right
        rfl
    · simp only [sendError, sendMessage, errorFrame, List.mem_singleton] at hm
      injection hm with h1 h2
      rw [h2]
      left
      rfl

theorem handleIceCandidate_outputs_type (s : SigState) (user : Conn) (msg : Message) (now : Nat) :
    ∀ x m, Output.send x m ∈ (handleIceCandidate s user msg now).outputs →
      m.type = MessageTypeError ∨ m.type = msg.type := by
  intro x m hm
  unfold handleIceCandidate at hm
  split at hm
  · simp only [sendError, sendMessage, errorFrame, List.mem_singleton] at hm
    injection hm with h1 h2
    rw [h2]
    left
    rfl
  · split at hm
    · dsimp only at hm
      unfold forwardToUser at hm
      cases hc : getConnection s msg.targetID with
      | none =>
        rw [hc] at hm
        exact absurd hm (List.not_mem_nil _)
      | some t =>
        rw [hc] at hm
        simp only [sendMessage, List.mem_singleton] at hm
        injection hm with h1 h2
        rw [h2]
        right
        rfl
    · simp only [sendError, sendMessage, errorFrame, List.mem_singleton] at hm
      injection hm with h1 h2
      rw [h2]
      left
      rfl

/-- C5 amended: the second half of the claim holds — no user_joined frame
whose user_id equals the recipient is ever fanned out to a peer (every
user_joined frame sent to a stream other than the handling sender's
carries the sender's id, which differs from that recipient). The first
half is refuted by the counterexample: the joiner (and each recipient)
does appear in the users list of the frames broadcast to peers. -/
theorem c5_amended_no_self_user_joined (s : SigState) (uid : String) (msg : Message) (now : Nat)
    (x : String) (m : Message)
    (hwf : WFConns s)
    (hmem : Output.send x m ∈ (HandleMessage s uid (some msg) now).outputs)
    (hty : m.type = MessageTypeUserJoined)
    (hx : x ≠ uid) :
    m.userID ≠ x := by
  unfold HandleMessage at hmem
  cases hc : getConnection s uid with
  | none =>
    rw [hc] at hmem
    exact absurd hmem (List.not_mem_nil _)
  | some user =>
    rw [hc] at hmem
    dsimp only at hmem
    have huid : user.id = uid := hwf (uid, user) (lookup_mem hc)
    by_cases h1 : msg.type = MessageTypeJoinRoom
    · rw [if_pos h1] at hmem
      have hj := handleJoinRoom_userJoined_userID s user
        { msg with userID := uid, timestamp := now } now x m hmem hty
      rw [hj, huid]
      exact fun hcon => hx hcon.symm
    · rw [if_neg h1] at hmem
      by_cases h2 : msg.type = MessageTypeLeaveRoom
      · rw [if_pos h2] at hmem
        rcases handleLeaveRoom_outputs_type s user _ now x m hmem with h | h <;>
          rw [hty] at h <;> exact absurd h (by decide)
      · rw [if_neg h2] at hmem
        by_cases h3 : msg.type = MessageTypeOffer
        · rw [if_pos h3] at hmem
          rcases handleOffer_outputs_type s user _ now x m hmem with h | h <;> rw [hty] at h
          · exact absurd h (by decide)
          · rw [h3] at h
            exact absurd h (by decide)
        · rw [if_neg h3] at hmem
          by_cases h4 : msg.type = MessageTypeAnswer
          · rw [if_pos h4] at hmem
            rcases handleAnswer_outputs_type s user _ now x m hmem with h | h <;> rw [hty] at h
            · exact absurd h (by decide)
            · rw [h4] at h
              exact absurd h (by decide)
          · rw [if_neg h4] at hmem
            by_cases h5 : msg.type = MessageTypeIceCandidate
            · rw [if_pos h5] at hmem
              rcases handleIceCandidate_outputs_type s user _ now x m hmem with h | h <;>
                rw [hty] at h
              · exact absurd h (by decide)
              · rw [h5] at h
                exact absurd h (by decide)
            · rw [if_neg h5] at hmem
              exact absurd hmem (List.not_mem_nil _)

/-- C5 witness: in the two-user scenario the frame fanned to peer a (a
stream other than the sender b's) has user_id b, which differs from a. -/
theorem c5_witness : c5EchoMsg.userID ≠ "a" :=
  c5_amended_no_self_user_joined twoUserState "b" joinRMsg 3 "a" c5EchoMsg
    (by unfold WFConns; decide) (by decide) rfl (by decide)

/-! ## C3 — the join confirmation frame -/

def countUserJoinedSendsTo (outs : List Output) (uid : String) : Nat :=
  outs.countP fun o =>
    match o with
    | .send x m => x == uid && m.type == MessageTypeUserJoined

theorem countUJ_append (l1 l2 : List Output) (uid : String) :
    countUserJoinedSendsTo (l1 ++ l2) uid =
      countUserJoinedSendsTo l1 uid + countUserJoinedSendsTo l2 uid :=
  List.countP_append _ _ _

theorem WFConns_connections_eq (s s1 : SigState) (h : WFConns s)
    (he : s1.connections = s.connections) : WFConns s1 := by
  intro p hp
  rw [he] at hp
  exact h p hp

theorem WFConns_setConnRoom (s : SigState) (uid rid : String) (h : WFConns s) :
    WFConns (setConnRoom s uid rid) := by
  intro p hp
  unfold setConnRoom at hp
  simp only [List.mem_map] at hp
  obtain ⟨q, hq, hpq⟩ := hp
  subst hpq
  by_cases hk : (q.1 == uid) = true
  · rw [if_pos hk]
    exact h q hq
  · rw [if_neg hk]
    exact h q hq

theorem WFConns_handleLeaveRoom (s : SigState) (user : Conn) (rid1 : String) (now : Nat)
    (h : WFConns s) : WFConns (handleLeaveRoom s user rid1 now).state := by
  unfold handleLeaveRoom
  split
  · exact h
  · split
    · exact fun p hp => h p hp
    · dsimp only
      exact WFConns_setConnRoom _ user.id "" (fun p hp => h p hp)

theorem WFConns_joinPre (s : SigState) (user : Conn) (rid : String) (now : Nat) (h : WFConns s) :
    WFConns (joinPre s user rid now).1 := by
  unfold joinPre
  dsimp only
  split
  · exact fun p hp => WFConns_handleLeaveRoom s user user.roomID now h p hp
  · exact fun p hp => h p hp

theorem WFConns_joinS3 (s : SigState) (user : Conn) (rid : String) (now : Nat) (h : WFConns s) :
    WFConns (joinS3 s user rid now) := by
  unfold joinS3
  dsimp only
  exact WFConns_setConnRoom _ user.id rid
    (fun p hp => WFConns_joinPre s user rid now h p hp)

theorem mem_joinConnectedOthers_ne (s : SigState) (user : Conn) (rid : String) (now : Nat)
    (uid1 : String) (h : uid1 ∈ joinConnectedOthers s user rid now) : uid1 ≠ user.id := by
  unfold joinConnectedOthers filterConnectedUsers at h
  rw [List.mem_filter] at h
  have h2 := h.1
  unfold RoomService.getOtherUsersInRoom at h2
  rw [List.mem_filter] at h2
  exact bne_iff_ne.mp h2.2

theorem countUJ_broadcast_zero (s3 : SigState) (connected : List String) (m : Message)
    (uid : String) (hwf : WFConns s3) (hne : ∀ u1 ∈ connected, u1 ≠ uid) :
    countUserJoinedSendsTo (broadcastToUsers s3 connected m) uid = 0 := by
  unfold countUserJoinedSendsTo
  rw [List.countP_eq_zero]
  intro o ho
  obtain ⟨u1, c, hu1, hc, hoe⟩ := mem_broadcast s3 connected m o ho
  subst hoe
  have hcid : c.id = u1 := hwf (u1, c) (lookup_mem hc)
  have hb : (c.id == uid) = false := beq_eq_false_iff_ne.mpr (by rw [hcid]; exact hne u1 hu1)
  simp [hb]

theorem countUJ_joinPre_zero (s : SigState) (user : Conn) (rid : String) (now : Nat)
    (uid : String) : countUserJoinedSendsTo (joinPre s user rid now).2 uid = 0 := by
  unfold countUserJoinedSendsTo
  rw [List.countP_eq_zero]
  intro o ho
  cases o with
  | send x m =>
    rcases joinPre_outputs_type s user rid now x m ho with h | h <;>
    · have hb : (m.type == MessageTypeUserJoined) = false := by
        rw [h]
        decide
      simp [hb]

/-- C3: for every join_room the engine completes successfully (room not
full after the sweep, RoomService.JoinRoom succeeded), the sender receives
exactly one user_joined frame on its own stream; it carries the sender's
own id and a users list equal to the connected other members followed by
the sender itself — so it always contains the joiner, and when the joiner
is alone it is exactly the singleton of the joiner. -/
theorem c3_join_confirmation (s : SigState) (user : Conn) (msg : Message) (rid : String)
    (now : Nat)
    (hwf : WFConns s)
    (hdata : msg.data = MsgData.joinRoomD rid)
    (hfull : RoomService.isRoomFull (joinPre s user rid now).1.kv rid = false)
    (hjoin : ∃ orm, (RoomService.joinRoom (joinPre s user rid now).1.kv user.id rid now).2 =
      .ok orm) :
    (handleJoinRoom s user msg now).result = Except.ok () ∧
    countUserJoinedSendsTo (handleJoinRoom s user msg now).outputs user.id = 1 ∧
    Output.send user.id (joinEchoMsg s user rid now) ∈ (handleJoinRoom s user msg now).outputs ∧
    (joinEchoMsg s user rid now).userID = user.id ∧
    (joinEchoMsg s user rid now).data =
      MsgData.userJoinedD user.id (joinConnectedOthers s user rid now ++ [user.id]) ∧
    (joinConnectedOthers s user rid now = [] →
      (joinEchoMsg s user rid now).data = MsgData.userJoinedD user.id [user.id]) := by
  obtain ⟨orm, hjr⟩ := hjoin
  have hexp : handleJoinRoom s user msg now =
      { state := joinS3 s user rid now,
        outputs := (joinPre s user rid now).2 ++
          (if (joinConnectedOthers s user rid now).length > 0 then
            broadcastToUsers (joinS3 s user rid now) (joinConnectedOthers s user rid now)
              (joinEchoMsg s user rid now)
          else []) ++
          [sendMessage user (joinEchoMsg s user rid now)],
        result := .ok () } := by
    unfold handleJoinRoom
    rw [hdata]
    dsimp only
    rw [hfull]
    simp only [Bool.false_eq_true, if_false]
    rw [hjr]
  refine ⟨?_, ?_, ?_, rfl, rfl, ?_⟩
  · rw [hexp]
  · rw [hexp]
    dsimp only
    rw [countUJ_append, countUJ_append, countUJ_joinPre_zero]
    have hbr : countUserJoinedSendsTo
        (if (joinConnectedOthers s user rid now).length > 0 then
          broadcastToUsers (joinS3 s user rid now) (joinConnectedOthers s user rid now)
            (joinEchoMsg s user rid now)
        else []) user.id = 0 := by
      split
      · exact countUJ_broadcast_zero (joinS3 s user rid now) _ _ user.id
          (WFConns_joinS3 s user rid now hwf)
          (fun u1 hu1 => mem_joinConnectedOthers_ne s user rid now u1 hu1)
      · rfl
    rw [hbr]
    have hone : countUserJoinedSendsTo [sendMessage user (joinEchoMsg s user rid now)]
        user.id = 1 := by
      unfold countUserJoinedSendsTo sendMessage
      rw [List.countP_singleton]
      have h1 : (user.id == user.id) = true := beq_self_eq_true user.id
      have h2 : ((joinEchoMsg s user rid now).type == MessageTypeUserJoined) = true := by
        unfold joinEchoMsg
        exact beq_self_eq_true MessageTypeUserJoined
      simp [h1, h2]
    rw [hone]
  · rw [hexp]
    dsimp only
    exact List.mem_append_right _ (List.mem_singleton.mpr rfl)
  · intro h0
    unfold joinEchoMsg
    rw [h0]
    rfl

def soloJoinState : SigState :=
  { connections := [("a", { id := "a", sessionID := "sa", roomID := "" })],
    kv := { users := [("a", { id := "a", sessionID := "sa" })], rooms := [] } }

/-- C3 witness: a single connected user a joins the fresh room R and gets
exactly one user_joined confirmation with users = [a]. -/
theorem c3_witness :
    (handleJoinRoom soloJoinState { id := "a", sessionID := "sa", roomID := "" } joinRMsg 1).result
      = Except.ok () ∧
    countUserJoinedSendsTo
      (handleJoinRoom soloJoinState { id := "a", sessionID := "sa", roomID := "" }
        joinRMsg 1).outputs "a" = 1 ∧
    Output.send "a"
      (joinEchoMsg soloJoinState { id := "a", sessionID := "sa", roomID := "" } "R" 1) ∈
      (handleJoinRoom soloJoinState { id := "a", sessionID := "sa", roomID := "" }
        joinRMsg 1).outputs ∧
    (joinEchoMsg soloJoinState { id := "a", sessionID := "sa", roomID := "" } "R" 1).userID
      = "a" ∧
    (joinEchoMsg soloJoinState { id := "a", sessionID := "sa", roomID := "" } "R" 1).data =
      MsgData.userJoinedD "a"
        (joinConnectedOthers soloJoinState { id := "a", sessionID := "sa", roomID := "" } "R" 1
          ++ ["a"]) ∧
    (joinConnectedOthers soloJoinState { id := "a", sessionID := "sa", roomID := "" } "R" 1 = [] →
      (joinEchoMsg soloJoinState { id := "a", sessionID := "sa", roomID := "" } "R" 1).data =
        MsgData.userJoinedD "a" ["a"]) :=
  c3_join_confirmation soloJoinState { id := "a", sessionID := "sa", roomID := "" } joinRMsg "R" 1
    (by unfold WFConns; decide) rfl (by decide)
    ⟨some { id := "R", users := ["a"], createdAt := 1, updatedAt := 1 }, by decide⟩

/-! ## C7 — registry lock held across blocking operations -/

/-- C7: evaluating the lock trace of RemoveConnection for a registered
user whose cached room is non-empty (here room R with one other member b)
exhibits a violation: connMutex is held across the shared-KV calls and the
peer stream write of the leave-room logic, and connMutex is re-acquired
(handleLeaveRoom's own Lock around the cached-room update) while
RemoveConnection still holds it. -/
theorem c7_removeConnection_lock_violation :
    lockViolation 0 (removeConnectionLockTrace true "R" "a" false ["b"]) = true ∧
    removeConnectionLockTrace true "R" "a" false ["b"] =
      [.lockW, .kvCall "GetOtherUsersInRoom", .kvCall "LeaveRoom", .lockW, .unlockW,
       .lockR, .unlockR, .streamWrite "b", .unlockW] := by decide

/-! ## C10 — idempotence of Room.AddUser -/

/-- C10 counterexample: on a full room, AddUser returns false even for a
user already in the member list, because the capacity check precedes the
membership check. -/
theorem c10_counterexample :
    "u0" ∈ fullRoomR.users ∧ (fullRoomR.addUser "u0" 7).1 = false := by decide

/-- C10 amended: on a room below capacity, AddUser of an existing member
returns true and leaves the whole record (member list and UpdatedAt)
unchanged, and a second AddUser of the same id yields the same member
list. -/
theorem c10_amended_addUser_idempotent (r : Room) (u : String) (t1 t2 : Nat)
    (hcap : r.users.length < MaxRoomUsers) (hmem : u ∈ r.users) :
    r.addUser u t1 = (true, r) ∧
    ((r.addUser u t1).2.addUser u t2).2.users = (r.addUser u t1).2.users := by
  have hcj : r.canJoin = true := decide_eq_true hcap
  have h1 : r.addUser u t1 = (true, r) := by
    unfold Room.addUser
    rw [hcj]
    simp [hmem]
  have h2 : r.addUser u t2 = (true, r) := by
    unfold Room.addUser
    rw [hcj]
    simp [hmem]
  rw [h1, h2]
  exact ⟨rfl, rfl⟩

/-- C10 witness: a 9-member room containing u0. -/
theorem c10_witness :
    room9R.addUser "u0" 3 = (true, room9R) ∧
    ((room9R.addUser "u0" 3).2.addUser "u0" 4).2.users = (room9R.addUser "u0" 3).2.users :=
  c10_amended_addUser_idempotent room9R "u0" 3 4 (by decide) (by decide)

